import Mathlib

/-!
Verification development for the client-side interaction core of a
collaborative whiteboard (`src/app/board/[boardId]/_components/canvas.tsx`).

The component's React state and the Liveblocks storage/presence it mutates are
embedded as one explicit state record `CanvasS`; every event handler of the
source becomes a pure function `CanvasS → … → CanvasS`.  The Liveblocks
`LiveMap` of layers is embedded as an association list with unique keys in
mind, `LiveList` of layer ids as a plain list, and `nanoid` id generation as an
explicit parameter of the operations that call it.  Calls to
`setMyPresence(…, { addToHistory: true })` are counted in the field
`undoableSets`, and `history.pause()` / `history.resume()` toggle the boolean
`historyPaused`.

Geometry helpers imported by the component from `lib/utils`
(`penPointsToPathLayer`, `resizeBounds`, `findIntersectingLayersWithRectangle`)
are not part of the provided sources; they are modelled from the spec and
marked as such in their doc comments.
-/

namespace Whiteboard

/-- A canvas-space coordinate. -/
structure Point where
  x : Int
  y : Int
deriving DecidableEq

/-- An rgb fill color (`Color` in `types/canvas`). -/
structure Color where
  r : Nat
  g : Nat
  b : Nat
deriving DecidableEq

/-- The layer variants (`LayerType` in `types/canvas`). -/
inductive LayerType where
  | Rectangle
  | Ellipse
  | Text
  | Note
  | Path
deriving DecidableEq

/-- A drawable layer.  Rectangle/Ellipse/Text/Note layers keep `points := none`;
a Path layer additionally stores its samples, re-expressed relative to its
bounding box. -/
structure Layer where
  type : LayerType
  x : Int
  y : Int
  height : Int
  width : Int
  fill : Color
  points : Option (List (Int × Int × Int)) := none
deriving DecidableEq

/-- A rectangle `{x, y, width, height}` (the `XYWH` type of the source). -/
structure XYWH where
  x : Int
  y : Int
  width : Int
  height : Int
deriving DecidableEq

/-- The resize handle being dragged: which sides of the bounding box it moves
(the source encodes this as a bitmask of `Side` flags). -/
structure Side where
  top : Bool
  bottom : Bool
  left : Bool
  right : Bool
deriving DecidableEq

/-- The interaction mode (`CanvasState` in `types/canvas`): a tagged union with
one variant per gesture. -/
inductive CanvasState where
  | None
  | Pressing (origin : Point)
  | SelectionNet (origin : Point) (current : Point)
  | Translating (current : Point)
  | Resizing (initialBounds : XYWH) (corner : Side)
  | Inserting (layerType : LayerType)
  | Pencil
deriving DecidableEq

/-- The caller's ephemeral presence fields written by the component. -/
structure Presence where
  selection : List String
  cursor : Option Point
  pencilDraft : Option (List (Int × Int × Int))
  penColor : Option Color
deriving DecidableEq

/-- The layer storage: the Liveblocks `LiveMap<string, Layer>` embedded as an
association list (keys are the collision-resistant random ids, so they are
unique; `size` is the list length). -/
abbrev LayerMap := List (String × Layer)

/-- Lookup in the layer map (`liveLayers.get(id)`; `undefined` becomes
`none`). -/
def getLayer : LayerMap → String → Option Layer
  | [], _ => none
  | (k, w) :: rest, id => if k = id then some w else getLayer rest id

/-- Write to the layer map (`liveLayers.set(id, layer)`): replaces the entry if
the key is present, appends otherwise. -/
def setL : LayerMap → String → Layer → LayerMap
  | [], id, v => [(id, v)]
  | (k, w) :: rest, id, v =>
      if k = id then (id, v) :: rest else (k, w) :: setL rest id v

/-- The whole embedded component state: document storage (`layers`,
`layerIds`), the local React state (`canvasState`, `lastUsedColor`), the
caller's presence, and the history bookkeeping. -/
structure CanvasS where
  layers : LayerMap
  layerIds : List String
  canvasState : CanvasState
  lastUsedColor : Color
  presence : Presence
  historyPaused : Bool
  undoableSets : Nat
deriving DecidableEq

/-- Modelled from the spec: `penPointsToPathLayer` is imported from
`lib/utils`, which is not among the provided sources.  Per the spec it
computes the bounding box over all sample x/y values, re-expresses each sample
relative to that box's top-left corner, and stores the color.  `listMin` is
the minimum of a sample-coordinate list. -/
def listMin (l : List Int) : Int := l.foldl min (l.headD 0)

/-- Modelled from the spec: the maximum of a sample-coordinate list, for the
bounding box of `penPointsToPathLayer`. -/
def listMax (l : List Int) : Int := l.foldl max (l.headD 0)

/-- Modelled from the spec: `penPointsToPathLayer(points, color)` "computes the
bounding box over all sample x/y values, then re-expresses each sample relative
to that box's top-left corner (so the layer's stored points are local
coordinates), and stores the color". -/
def penPointsToPathLayer (points : List (Int × Int × Int)) (fill : Color) :
    Layer :=
  let left := listMin (points.map (fun p => p.1))
  let top := listMin (points.map (fun p => p.2.1))
  let right := listMax (points.map (fun p => p.1))
  let bottom := listMax (points.map (fun p => p.2.1))
  { type := .Path, x := left, y := top,
    width := right - left, height := bottom - top, fill := fill,
    points := some (points.map (fun p => (p.1 - left, p.2.1 - top, p.2.2))) }

/-- Modelled from the spec: `resizeBounds(initialBounds, corner, point)`
"recomputes a bounding box when one of 8 corner/edge handles is dragged to
`point`, holding the opposite edge(s) fixed", swapping min/max when the dragged
edge crosses the opposite edge so width/height stay non-negative. -/
def resizeBounds (b : XYWH) (c : Side) (p : Point) : XYWH :=
  { x :=
      if c.left then min p.x (b.x + b.width)
      else if c.right then min p.x b.x
      else b.x,
    y :=
      if c.top then min p.y (b.y + b.height)
      else if c.bottom then min p.y b.y
      else b.y,
    width :=
      if c.left then |b.x + b.width - p.x|
      else if c.right then |p.x - b.x|
      else b.width,
    height :=
      if c.top then |b.y + b.height - p.y|
      else if c.bottom then |p.y - b.y|
      else b.height }

/-- Modelled from the spec: `findIntersectingLayersWithRectangle` "normalizes
the two corners into an axis-aligned rectangle, then returns, in the given id
order, every layer whose bounding box overlaps that rectangle"; a zero-area
rectangle intersects nothing (so the overlap comparisons are strict). -/
def findIntersectingLayersWithRectangle (ids : List String)
    (layers : LayerMap) (a b : Point) : List String :=
  let rx := min a.x b.x
  let ry := min a.y b.y
  let rw := |a.x - b.x|
  let rh := |a.y - b.y|
  ids.filter (fun id =>
    match getLayer layers id with
    | none => false
    | some l =>
        decide (rx + rw > l.x ∧ rx < l.x + l.width ∧
                ry + rh > l.y ∧ ry < l.y + l.height))

/-- The `MAX_LAYERS` capacity ceiling of the source. -/
def MAX_LAYERS : Nat := 100

/-- `insertLayer(layerType, position)` of the source: no-op at the capacity
ceiling, otherwise creates a 100×100 layer of the requested variant at
`position` with the last-used fill, appends the fresh id (`nanoid()`, passed
here as `newId`) to the order, sets the selection to `[newId]` with
`addToHistory`, and resets the mode to `None`. -/
def insertLayer (s : CanvasS) (newId : String) (layerType : LayerType)
    (position : Point) : CanvasS :=
  if MAX_LAYERS ≤ s.layers.length then s
  else
    { s with
      layerIds := s.layerIds ++ [newId],
      layers := setL s.layers newId
        { type := layerType, x := position.x, y := position.y,
          height := 100, width := 100, fill := s.lastUsedColor,
          points := none },
      presence := { s.presence with selection := [newId] },
      undoableSets := s.undoableSets + 1,
      canvasState := .None }

/-- `unselectLayers` of the source: clears a non-empty selection with
`addToHistory`, otherwise does nothing. -/
def unselectLayers (s : CanvasS) : CanvasS :=
  if 0 < s.presence.selection.length then
    { s with
      presence := { s.presence with selection := [] },
      undoableSets := s.undoableSets + 1 }
  else s

/-- `insertPath` of the source: when the draft is missing, has fewer than two
samples, or the capacity ceiling is reached, it only clears the draft;
otherwise it inserts the converted path layer under the fresh id, appends the
id to the order, clears the draft, and sets the mode to `Pencil`. -/
def insertPath (s : CanvasS) (newId : String) : CanvasS :=
  match s.presence.pencilDraft with
  | none => { s with presence := { s.presence with pencilDraft := none } }
  | some draft =>
      if draft.length < 2 ∨ MAX_LAYERS ≤ s.layers.length then
        { s with presence := { s.presence with pencilDraft := none } }
      else
        { s with
          layers := setL s.layers newId
            (penPointsToPathLayer draft s.lastUsedColor),
          layerIds := s.layerIds ++ [newId],
          presence := { s.presence with pencilDraft := none },
          canvasState := .Pencil }

/-- `startMultiSelection` of the source: switches to `SelectionNet` when the
Manhattan distance from the press origin exceeds 5. -/
def startMultiSelection (s : CanvasS) (current origin : Point) : CanvasS :=
  if 5 < |current.x - origin.x| + |current.y - origin.y| then
    { s with canvasState := .SelectionNet origin current }
  else s

/-- `updateSelectionNet` of the source: records `{origin, current}` and writes
the intersecting layer ids into the presence selection. -/
def updateSelectionNet (s : CanvasS) (current origin : Point) : CanvasS :=
  { s with
    canvasState := .SelectionNet origin current,
    presence := { s.presence with
      selection :=
        findIntersectingLayersWithRectangle s.layerIds s.layers
          origin current } }

/-- One step of the translation loop: `liveLayers.get(id)` followed by
`layer.update({x, y})` when the layer exists. -/
def moveLayer (off : Point) (ls : LayerMap) (id : String) : LayerMap :=
  match getLayer ls id with
  | some l => setL ls id { l with x := l.x + off.x, y := l.y + off.y }
  | none => ls

/-- The `for (const id of self.presence.selection)` loop of
`translateSelectedLayers`. -/
def translateLoop (off : Point) (sel : List String) (ls : LayerMap) :
    LayerMap :=
  match sel with
  | [] => ls
  | id :: rest => translateLoop off rest (moveLayer off ls id)

/-- `translateSelectedLayers(point)` of the source: no-op unless the mode is
`Translating`; otherwise adds the delta from the mode's recorded point to each
selected layer's x/y and advances the recorded point. -/
def translateSelectedLayers (s : CanvasS) (point : Point) : CanvasS :=
  match s.canvasState with
  | .Translating current =>
      { s with
        layers :=
          translateLoop ⟨point.x - current.x, point.y - current.y⟩
            s.presence.selection s.layers,
        canvasState := .Translating point }
  | _ => s

/-- `resizeSelectedLayer(point)` of the source: no-op unless the mode is
`Resizing`; otherwise writes `resizeBounds(initialBounds, corner, point)` onto
the layer found under `selection[0]`, if any. -/
def resizeSelectedLayer (s : CanvasS) (point : Point) : CanvasS :=
  match s.canvasState with
  | .Resizing initialBounds corner =>
      match s.presence.selection.head? with
      | none => s
      | some id =>
          match getLayer s.layers id with
          | none => s
          | some l =>
              let bounds := resizeBounds initialBounds corner point
              { s with
                layers := setL s.layers id
                  { l with x := bounds.x, y := bounds.y,
                           width := bounds.width, height := bounds.height } }
  | _ => s

/-- `continueDrawing(point, e)` of the source: returns unchanged unless the
mode is `Pencil`, `e.buttons === 1`, and a draft exists; otherwise updates the
cursor and appends the sample, except that a single-point draft identical (in
x/y) to the new point is kept as is. -/
def continueDrawing (s : CanvasS) (point : Point) (buttons : Nat)
    (pressure : Int) : CanvasS :=
  match s.presence.pencilDraft with
  | none => s
  | some draft =>
      if s.canvasState ≠ .Pencil ∨ buttons ≠ 1 then s
      else
        { s with presence := { s.presence with
            cursor := some point,
            pencilDraft := some
              (if draft.length = 1 ∧ (draft.headD (0, 0, 0)).1 = point.x ∧
                  (draft.headD (0, 0, 0)).2.1 = point.y
               then draft
               else draft ++ [(point.x, point.y, pressure)]) } }

/-- `startDrawing(point, pressure)` of the source: starts a one-sample draft
and records the pen color. -/
def startDrawing (s : CanvasS) (point : Point) (pressure : Int) : CanvasS :=
  { s with presence := { s.presence with
      pencilDraft := some [(point.x, point.y, pressure)],
      penColor := some s.lastUsedColor } }

/-- `onPointerMove` of the source: dispatches on the current mode, then writes
the cursor to the presence.  `current` is the canvas-space point
(`pointerEventToCanvasPoint(e, camera)`); `buttons`/`pressure` are the pointer
event fields used by `continueDrawing`. -/
def onPointerMove (s : CanvasS) (current : Point) (buttons : Nat)
    (pressure : Int) : CanvasS :=
  let t :=
    match s.canvasState with
    | .Pressing origin => startMultiSelection s current origin
    | .SelectionNet origin _ => updateSelectionNet s current origin
    | .Translating _ => translateSelectedLayers s current
    | .Resizing _ _ => resizeSelectedLayer s current
    | .Pencil => continueDrawing s current buttons pressure
    | _ => s
  { t with presence := { t.presence with cursor := some current } }

/-- `onPointerLeave` of the source: clears the presence cursor. -/
def onPointerLeave (s : CanvasS) : CanvasS :=
  { s with presence := { s.presence with cursor := none } }

/-- `onPointerDown` of the source: returns in `Inserting`, starts a draft in
`Pencil`, and otherwise records the press origin in `Pressing`. -/
def onPointerDown (s : CanvasS) (point : Point) (pressure : Int) : CanvasS :=
  match s.canvasState with
  | .Inserting _ => s
  | .Pencil => startDrawing s point pressure
  | _ => { s with canvasState := .Pressing point }

/-- `onPointerUp` of the source: the `None`/`Pressing` branch unselects and
resets the mode, `Pencil` commits the draft, `Inserting` inserts a layer, and
every other mode falls to the `else` branch that only resets the mode; in
every branch `history.resume()` runs afterwards. -/
def onPointerUp (s : CanvasS) (point : Point) (newId : String) : CanvasS :=
  let t :=
    match s.canvasState with
    | .None => { unselectLayers s with canvasState := .None }
    | .Pressing _ => { unselectLayers s with canvasState := .None }
    | .Pencil => insertPath s newId
    | .Inserting layerType => insertLayer s newId layerType point
    | _ => { s with canvasState := .None }
  { t with historyPaused := false }

/-- `onLayerPointerDown` of the source: returns in `Pencil`/`Inserting`;
otherwise pauses the history, selects the layer (with `addToHistory`) when it
is not already selected, and enters `Translating` at the point. -/
def onLayerPointerDown (s : CanvasS) (point : Point) (layerId : String) :
    CanvasS :=
  match s.canvasState with
  | .Pencil => s
  | .Inserting _ => s
  | _ =>
      let s1 : CanvasS := { s with historyPaused := true }
      let s2 : CanvasS :=
        if layerId ∈ s1.presence.selection then s1
        else
          { s1 with
            presence := { s1.presence with selection := [layerId] },
            undoableSets := s1.undoableSets + 1 }
      { s2 with canvasState := .Translating point }

/-- The pointer events the component can receive.  The source attaches
`onPointerMove`, `onPointerLeave`, `onPointerDown` and `onPointerUp` to the
svg and `onLayerPointerDown` to each layer; it registers no handler for loss
of pointer capture. -/
inductive PointerEvent where
  | move (p : Point) (buttons : Nat) (pressure : Int)
  | down (p : Point) (pressure : Int)
  | up (p : Point) (newId : String)
  | leave
  | lostCapture
  | layerDown (p : Point) (layerId : String)

/-- Event dispatch of the component.  `lostCapture` has no registered handler
in the source, so it leaves the state unchanged. -/
def dispatch (s : CanvasS) : PointerEvent → CanvasS
  | .move p b pr => onPointerMove s p b pr
  | .down p pr => onPointerDown s p pr
  | .up p nid => onPointerUp s p nid
  | .leave => onPointerLeave s
  | .lostCapture => s
  | .layerDown p lid => onLayerPointerDown s p lid

/-- A default rectangle layer, used to build concrete test states. -/
def dummyLayer : Layer :=
  { type := .Rectangle, x := 0, y := 0, height := 100, width := 100,
    fill := ⟨0, 0, 0⟩, points := none }

/-- The presence of a fresh connection: nothing selected, no cursor, no
draft. -/
def emptyPresence : Presence :=
  { selection := [], cursor := none, pencilDraft := none, penColor := none }

/-- The component's initial state: empty document, mode `None`, black
last-used color, history running. -/
def baseS : CanvasS :=
  { layers := [], layerIds := [], canvasState := .None,
    lastUsedColor := ⟨0, 0, 0⟩, presence := emptyPresence,
    historyPaused := false, undoableSets := 0 }

/-- A concrete state whose document already holds 100 layers. -/
def fullS : CanvasS :=
  { baseS with layers := List.replicate 100 ("x", dummyLayer) }

/-- A concrete layer at position (10, 10). -/
def layerA : Layer := { dummyLayer with x := 10, y := 10 }

/-- A concrete state in the middle of a translate drag: mode
`Translating (0,0)`, layer `"a"` selected, layers `"a"` and `"c"` stored. -/
def transS : CanvasS :=
  { baseS with
    canvasState := .Translating ⟨0, 0⟩,
    presence := { emptyPresence with selection := ["a"] },
    layers := [("a", layerA), ("c", dummyLayer)] }

/-- A concrete state in the middle of a resize drag of layer `"a"` from the
top-left handle. -/
def resizeS : CanvasS :=
  { baseS with
    canvasState := .Resizing ⟨0, 0, 10, 10⟩ ⟨true, false, true, false⟩,
    presence := { emptyPresence with selection := ["a"] },
    layers := [("a", layerA)] }

/-- A concrete state just after a pointer press at the origin. -/
def pressS : CanvasS := { baseS with canvasState := .Pressing ⟨0, 0⟩ }

/-- A concrete state in the middle of a selection-net drag with layer `"a"`
already captured by the net. -/
def netS : CanvasS :=
  { baseS with
    canvasState := .SelectionNet ⟨0, 0⟩ ⟨10, 10⟩,
    presence := { emptyPresence with selection := ["a"] },
    layers := [("a", layerA)] }

/-- A concrete state in the middle of a pencil gesture with a two-sample
draft. -/
def pencilS : CanvasS :=
  { baseS with
    canvasState := .Pencil,
    presence := { emptyPresence with
      pencilDraft := some [(0, 0, 1), (5, 5, 1)] } }

/-- A concrete mid-drag state whose undo history is paused. -/
def pausedS : CanvasS :=
  { baseS with canvasState := .Translating ⟨0, 0⟩, historyPaused := true }

/-- A concrete translating state whose selection contains the stale id
`"ghost"` with no stored layer. -/
def staleS : CanvasS :=
  { baseS with
    canvasState := .Translating ⟨0, 0⟩,
    presence := { emptyPresence with selection := ["a", "ghost"] },
    layers := [("a", layerA)] }

/-- A concrete resizing state whose selected id `"ghost"` has no stored
layer. -/
def staleResizeS : CanvasS :=
  { baseS with
    canvasState := .Resizing ⟨0, 0, 10, 10⟩ ⟨true, false, true, false⟩,
    presence := { emptyPresence with selection := ["ghost"] },
    layers := [("a", layerA)] }

theorem getLayer_setL_self (ls : LayerMap) (id : String) (v : Layer) :
    getLayer (setL ls id v) id = some v := by
  induction ls with
  | nil => simp [setL, getLayer]
  | cons p rest ih =>
    obtain ⟨k, w⟩ := p
    by_cases hk : k = id
    · simp [setL, hk, getLayer]
    · simp [setL, hk, getLayer, ih]

theorem getLayer_setL_ne (ls : LayerMap) (id q : String) (v : Layer)
    (h : q ≠ id) : getLayer (setL ls id v) q = getLayer ls q := by
  induction ls with
  | nil => simp [setL, getLayer, Ne.symm h]
  | cons p rest ih =>
    obtain ⟨k, w⟩ := p
    by_cases hk : k = id
    · subst hk
      simp [setL, getLayer, Ne.symm h]
    · simp [setL, hk, getLayer, ih]

theorem length_setL_fresh (ls : LayerMap) (id : String) (v : Layer)
    (h : getLayer ls id = none) : (setL ls id v).length = ls.length + 1 := by
  induction ls with
  | nil => rfl
  | cons p rest ih =>
    obtain ⟨k, w⟩ := p
    by_cases hk : k = id
    · simp [getLayer, hk] at h
    · simp only [getLayer, hk, if_false] at h
      simp [setL, hk, ih h]

theorem getLayer_moveLayer_ne (off : Point) (ls : LayerMap) (id q : String)
    (h : q ≠ id) : getLayer (moveLayer off ls id) q = getLayer ls q := by
  unfold moveLayer
  cases hg : getLayer ls id with
  | none => rfl
  | some l => exact getLayer_setL_ne ls id q _ h

theorem getLayer_moveLayer_self (off : Point) (ls : LayerMap) (id : String) :
    getLayer (moveLayer off ls id) id =
      (getLayer ls id).map
        (fun l => { l with x := l.x + off.x, y := l.y + off.y }) := by
  unfold moveLayer
  cases hg : getLayer ls id with
  | none => simp [hg]
  | some l => simp [getLayer_setL_self]

theorem getLayer_translateLoop_not_mem (off : Point) (sel : List String)
    (ls : LayerMap) (q : String) (hq : q ∉ sel) :
    getLayer (translateLoop off sel ls) q = getLayer ls q := by
  induction sel generalizing ls with
  | nil => rfl
  | cons i rest ih =>
    have hqi : q ≠ i := fun h => hq (h ▸ List.mem_cons_self i rest)
    have hqr : q ∉ rest := fun h => hq (List.mem_cons_of_mem i h)
    rw [translateLoop, ih (moveLayer off ls i) hqr,
      getLayer_moveLayer_ne off ls i q hqi]

theorem getLayer_translateLoop_mem (off : Point) (sel : List String)
    (ls : LayerMap) (q : String) (hnd : sel.Nodup) (hq : q ∈ sel) :
    getLayer (translateLoop off sel ls) q =
      (getLayer ls q).map
        (fun l => { l with x := l.x + off.x, y := l.y + off.y }) := by
  induction sel generalizing ls with
  | nil => cases hq
  | cons i rest ih =>
    obtain ⟨hi, hrest⟩ := List.nodup_cons.mp hnd
    rw [translateLoop]
    rcases List.mem_cons.mp hq with rfl | hq'
    · rw [getLayer_translateLoop_not_mem off rest _ q hi,
        getLayer_moveLayer_self]
    · have hqi : q ≠ i := fun h => hi (h ▸ hq')
      rw [ih (moveLayer off ls i) hrest hq',
        getLayer_moveLayer_ne off ls i q hqi]

theorem translateLoop_filter_missing (off : Point) (sel : List String)
    (ls : LayerMap) (bad : String) (hbad : getLayer ls bad = none) :
    translateLoop off sel ls =
      translateLoop off (sel.filter (fun i => i != bad)) ls := by
  induction sel generalizing ls with
  | nil => rfl
  | cons i rest ih =>
    by_cases hi : i = bad
    · subst hi
      have hmv : moveLayer off ls i = ls := by simp [moveLayer, hbad]
      simp only [translateLoop, hmv, List.filter_cons, bne_self_eq_false,
        Bool.false_eq_true, if_false]
      exact ih ls hbad
    · have hbad' : getLayer (moveLayer off ls i) bad = none := by
        rw [getLayer_moveLayer_ne off ls i bad (fun h => hi h.symm)]
        exact hbad
      have hne : (i != bad) = true := bne_iff_ne.mpr hi
      simp only [translateLoop, List.filter_cons, hne, if_true]
      exact ih (moveLayer off ls i) hbad'

/-- Claim C1: for every insertion request while the document holds fewer than
100 layers, `insertLayer` creates a layer of the requested variant at the
given position with width 100, height 100 and the last-used fill color under
the fresh id, appends the new id to the end of the layer-id order, sets the
local selection to exactly `[newId]` as an undoable step, resets the mode to
`None`, and grows the layer count by one while leaving every other layer
unchanged. -/
theorem insertLayer_under_cap (s : CanvasS) (newId : String)
    (layerType : LayerType) (position : Point)
    (hcap : s.layers.length < 100) (hfresh : getLayer s.layers newId = none) :
    getLayer (insertLayer s newId layerType position).layers newId =
      some { type := layerType, x := position.x, y := position.y,
             height := 100, width := 100, fill := s.lastUsedColor,
             points := none } ∧
    (insertLayer s newId layerType position).layers.length =
      s.layers.length + 1 ∧
    (∀ q, q ≠ newId →
      getLayer (insertLayer s newId layerType position).layers q =
        getLayer s.layers q) ∧
    (insertLayer s newId layerType position).layerIds =
      s.layerIds ++ [newId] ∧
    (insertLayer s newId layerType position).presence.selection = [newId] ∧
    (insertLayer s newId layerType position).undoableSets =
      s.undoableSets + 1 ∧
    (insertLayer s newId layerType position).canvasState = .None := by
  have hif : ¬ (MAX_LAYERS ≤ s.layers.length) := by
    simpa [MAX_LAYERS] using Nat.not_le.mpr hcap
  simp only [insertLayer, if_neg hif]
  refine ⟨getLayer_setL_self _ _ _, length_setL_fresh _ _ _ hfresh,
    fun q hq => getLayer_setL_ne _ _ _ _ hq, ?_, ?_, ?_, ?_⟩ <;> trivial

/-- Witness for C1: inserting a rectangle at (40, 40) into the empty
document. -/
theorem insertLayer_under_cap_w :
    (baseS.layers.length < 100 ∧ getLayer baseS.layers "a" = none) ∧
    getLayer (insertLayer baseS "a" .Rectangle ⟨40, 40⟩).layers "a" =
      some { type := .Rectangle, x := 40, y := 40, height := 100, width := 100,
             fill := baseS.lastUsedColor, points := none } ∧
    (insertLayer baseS "a" .Rectangle ⟨40, 40⟩).presence.selection = ["a"] ∧
    (insertLayer baseS "a" .Rectangle ⟨40, 40⟩).canvasState = .None :=
  have h := insertLayer_under_cap baseS "a" .Rectangle ⟨40, 40⟩ (by decide) rfl
  ⟨⟨by decide, rfl⟩, h.1, h.2.2.2.2.1, h.2.2.2.2.2.2⟩

/-- Claim C2: for every insertion request while the document already holds 100
or more layers, `insertLayer` is a silent no-op: the whole state (layer count,
order, selection, mode) is returned unchanged. -/
theorem insertLayer_at_cap (s : CanvasS) (newId : String)
    (layerType : LayerType) (position : Point)
    (hcap : 100 ≤ s.layers.length) :
    insertLayer s newId layerType position = s := by
  simp [insertLayer, MAX_LAYERS, hcap]

/-- Witness for C2 at a concrete document holding exactly 100 layers. -/
theorem insertLayer_at_cap_w :
    100 ≤ fullS.layers.length ∧
    insertLayer fullS "a" .Rectangle ⟨0, 0⟩ = fullS :=
  ⟨by decide, insertLayer_at_cap fullS "a" .Rectangle ⟨0, 0⟩ (by decide)⟩

/-- Claim C3: `insertPath` with a missing draft, a draft of fewer than 2
samples, or a document at the 100-layer cap inserts nothing but still clears
the draft; otherwise it inserts the converted path layer under the fresh id,
appends that id to the order, clears the draft, leaves the selection
unchanged, and sets the mode to `Pencil`. -/
theorem insertPath_spec (s : CanvasS) (newId : String) :
    ((s.presence.pencilDraft = none ∨
      (∃ d, s.presence.pencilDraft = some d ∧
        (d.length < 2 ∨ 100 ≤ s.layers.length))) →
      insertPath s newId =
        { s with presence := { s.presence with pencilDraft := none } }) ∧
    (∀ d, s.presence.pencilDraft = some d → 2 ≤ d.length →
      s.layers.length < 100 → getLayer s.layers newId = none →
      getLayer (insertPath s newId).layers newId =
        some (penPointsToPathLayer d s.lastUsedColor) ∧
      (insertPath s newId).layers.length = s.layers.length + 1 ∧
      (∀ q, q ≠ newId →
        getLayer (insertPath s newId).layers q = getLayer s.layers q) ∧
      (insertPath s newId).layerIds = s.layerIds ++ [newId] ∧
      (insertPath s newId).presence.pencilDraft = none ∧
      (insertPath s newId).presence.selection = s.presence.selection ∧
      (insertPath s newId).canvasState = .Pencil) := by
  constructor
  · rintro (hnone | ⟨d, hd, hguard⟩)
    · simp [insertPath, hnone]
    · have hg : d.length < 2 ∨ MAX_LAYERS ≤ s.layers.length := by
        simpa [MAX_LAYERS] using hguard
      simp only [insertPath, hd, if_pos hg]
  · intro d hd h2 hcap hfresh
    have hguard : ¬ (d.length < 2 ∨ MAX_LAYERS ≤ s.layers.length) := by
      simp only [MAX_LAYERS]
      omega
    simp only [insertPath, hd, if_neg hguard]
    refine ⟨getLayer_setL_self _ _ _, length_setL_fresh _ _ _ hfresh,
      fun q hq => getLayer_setL_ne _ _ _ _ hq, ?_, ?_, ?_, ?_⟩ <;> trivial

/-- Witness for C3: committing a concrete two-sample draft into the empty
document. -/
theorem insertPath_spec_w :
    (pencilS.presence.pencilDraft = some [(0, 0, 1), (5, 5, 1)] ∧
      2 ≤ ([(0, 0, 1), (5, 5, 1)] : List (Int × Int × Int)).length ∧
      pencilS.layers.length < 100 ∧ getLayer pencilS.layers "p" = none) ∧
    getLayer (insertPath pencilS "p").layers "p" =
      some (penPointsToPathLayer [(0, 0, 1), (5, 5, 1)]
        pencilS.lastUsedColor) ∧
    (insertPath pencilS "p").presence.pencilDraft = none ∧
    (insertPath pencilS "p").presence.selection =
      pencilS.presence.selection ∧
    (insertPath pencilS "p").canvasState = .Pencil :=
  have h := (insertPath_spec pencilS "p").2 [(0, 0, 1), (5, 5, 1)] rfl
    (by decide) (by decide) rfl
  ⟨⟨rfl, by decide, by decide, rfl⟩, h.1, h.2.2.2.2.1, h.2.2.2.2.2.1,
    h.2.2.2.2.2.2⟩

/-- Claim C4: `translateSelectedLayers` is a no-op unless the mode is
`Translating`; when it is, it adds the delta between the mode's recorded point
and `point` to the x and y of every selected layer only (each selected layer
keeps all its other fields, unselected layers are untouched), leaves the order
and presence unchanged, and advances the mode's recorded point to `point`. -/
theorem translateSelectedLayers_spec (s : CanvasS) (point : Point) :
    ((∀ c, s.canvasState ≠ .Translating c) →
      translateSelectedLayers s point = s) ∧
    (∀ cur, s.canvasState = .Translating cur → s.presence.selection.Nodup →
      (translateSelectedLayers s point).canvasState = .Translating point ∧
      (∀ id, id ∈ s.presence.selection →
        getLayer (translateSelectedLayers s point).layers id =
          (getLayer s.layers id).map
            (fun l => { l with x := l.x + (point.x - cur.x),
                               y := l.y + (point.y - cur.y) })) ∧
      (∀ id, id ∉ s.presence.selection →
        getLayer (translateSelectedLayers s point).layers id =
          getLayer s.layers id) ∧
      (translateSelectedLayers s point).layerIds = s.layerIds ∧
      (translateSelectedLayers s point).presence = s.presence) := by
  constructor
  · intro h
    cases hcs : s.canvasState with
    | Translating c => exact absurd hcs (h c)
    | None => simp [translateSelectedLayers, hcs]
    | Pressing o => simp [translateSelectedLayers, hcs]
    | SelectionNet o c => simp [translateSelectedLayers, hcs]
    | Resizing b c => simp [translateSelectedLayers, hcs]
    | Inserting t => simp [translateSelectedLayers, hcs]
    | Pencil => simp [translateSelectedLayers, hcs]
  · intro cur hcs hnd
    have hl : (translateSelectedLayers s point).layers =
        translateLoop ⟨point.x - cur.x, point.y - cur.y⟩
          s.presence.selection s.layers := by
      simp [translateSelectedLayers, hcs]
    refine ⟨by simp [translateSelectedLayers, hcs], ?_, ?_,
      by simp [translateSelectedLayers, hcs],
      by simp [translateSelectedLayers, hcs]⟩
    · intro id hid
      rw [hl]
      exact getLayer_translateLoop_mem ⟨point.x - cur.x, point.y - cur.y⟩
        s.presence.selection s.layers id hnd hid
    · intro id hid
      rw [hl]
      exact getLayer_translateLoop_not_mem _ _ _ _ hid

/-- Witness for C4: translating the concrete state `transS` by (3, 4) moves
the selected layer `"a"` and leaves the unselected layer `"c"` in place. -/
theorem translateSelectedLayers_spec_w :
    (transS.canvasState = .Translating ⟨0, 0⟩ ∧
      transS.presence.selection.Nodup ∧
      "a" ∈ transS.presence.selection ∧
      "c" ∉ transS.presence.selection) ∧
    (translateSelectedLayers transS ⟨3, 4⟩).canvasState =
      .Translating ⟨3, 4⟩ ∧
    getLayer (translateSelectedLayers transS ⟨3, 4⟩).layers "a" =
      some { layerA with x := 13, y := 14 } ∧
    getLayer (translateSelectedLayers transS ⟨3, 4⟩).layers "c" =
      getLayer transS.layers "c" :=
  have h := (translateSelectedLayers_spec transS ⟨3, 4⟩).2 ⟨0, 0⟩ rfl
    (by decide)
  ⟨⟨rfl, by decide, by decide, by decide⟩, h.1,
    by rw [h.2.1 "a" (by decide)]; decide,
    h.2.2.1 "c" (by decide)⟩

/-- Claim C5: `resizeSelectedLayer` is a no-op unless the mode is `Resizing`;
when it is, it writes the `{x, y, width, height}` computed by `resizeBounds`
from the mode's frozen initial bounds and corner together with `point` onto
exactly the single selected layer (the one under `selection[0]`), keeping its
other fields and leaving every other layer and the rest of the state
unchanged. -/
theorem resizeSelectedLayer_spec (s : CanvasS) (point : Point) :
    ((∀ b c, s.canvasState ≠ .Resizing b c) →
      resizeSelectedLayer s point = s) ∧
    (∀ b c id l, s.canvasState = .Resizing b c →
      s.presence.selection.head? = some id →
      getLayer s.layers id = some l →
      getLayer (resizeSelectedLayer s point).layers id =
        some { l with x := (resizeBounds b c point).x,
                      y := (resizeBounds b c point).y,
                      width := (resizeBounds b c point).width,
                      height := (resizeBounds b c point).height } ∧
      (∀ q, q ≠ id →
        getLayer (resizeSelectedLayer s point).layers q =
          getLayer s.layers q) ∧
      (resizeSelectedLayer s point).canvasState = s.canvasState ∧
      (resizeSelectedLayer s point).layerIds = s.layerIds ∧
      (resizeSelectedLayer s point).presence = s.presence) := by
  constructor
  · intro h
    cases hcs : s.canvasState with
    | Resizing b c => exact absurd hcs (h b c)
    | None => simp [resizeSelectedLayer, hcs]
    | Pressing o => simp [resizeSelectedLayer, hcs]
    | SelectionNet o c => simp [resizeSelectedLayer, hcs]
    | Translating c => simp [resizeSelectedLayer, hcs]
    | Inserting t => simp [resizeSelectedLayer, hcs]
    | Pencil => simp [resizeSelectedLayer, hcs]
  · intro b c id l hcs hsel hget
    simp only [resizeSelectedLayer, hcs, hsel, hget]
    refine ⟨getLayer_setL_self _ _ _,
      fun q hq => getLayer_setL_ne _ _ _ _ hq, ?_, ?_, ?_⟩ <;> trivial

/-- Witness for C5: resizing the concrete state `resizeS` from the top-left
handle to (2, 3) rewrites only layer `"a"` with the `resizeBounds` result. -/
theorem resizeSelectedLayer_spec_w :
    (resizeS.canvasState =
        .Resizing ⟨0, 0, 10, 10⟩ ⟨true, false, true, false⟩ ∧
      resizeS.presence.selection.head? = some "a" ∧
      getLayer resizeS.layers "a" = some layerA) ∧
    getLayer (resizeSelectedLayer resizeS ⟨2, 3⟩).layers "a" =
      some { layerA with
        x := (resizeBounds ⟨0, 0, 10, 10⟩ ⟨true, false, true, false⟩
          ⟨2, 3⟩).x,
        y := (resizeBounds ⟨0, 0, 10, 10⟩ ⟨true, false, true, false⟩
          ⟨2, 3⟩).y,
        width := (resizeBounds ⟨0, 0, 10, 10⟩ ⟨true, false, true, false⟩
          ⟨2, 3⟩).width,
        height := (resizeBounds ⟨0, 0, 10, 10⟩ ⟨true, false, true, false⟩
          ⟨2, 3⟩).height } ∧
    (resizeSelectedLayer resizeS ⟨2, 3⟩).canvasState = resizeS.canvasState :=
  have h := (resizeSelectedLayer_spec resizeS ⟨2, 3⟩).2 ⟨0, 0, 10, 10⟩
    ⟨true, false, true, false⟩ "a" layerA rfl rfl rfl
  ⟨⟨rfl, rfl, rfl⟩, h.1, h.2.2.1⟩

/-- Claim C6: while the mode is `Pressing` with a recorded origin, a pointer
move transitions to `SelectionNet` if and only if the Manhattan distance
between the origin and the current point exceeds 5 (otherwise the mode stays
`Pressing` at the origin); once in `SelectionNet`, every pointer move records
`{origin, current}` and writes the list of intersecting layer ids into the
presence selection. -/
theorem selection_net_spec (s : CanvasS) (current : Point) (buttons : Nat)
    (pressure : Int) :
    (∀ origin, s.canvasState = .Pressing origin →
      ((onPointerMove s current buttons pressure).canvasState =
          .SelectionNet origin current ↔
        5 < |current.x - origin.x| + |current.y - origin.y|) ∧
      (|current.x - origin.x| + |current.y - origin.y| ≤ 5 →
        (onPointerMove s current buttons pressure).canvasState =
          .Pressing origin)) ∧
    (∀ origin cur0, s.canvasState = .SelectionNet origin cur0 →
      (onPointerMove s current buttons pressure).canvasState =
        .SelectionNet origin current ∧
      (onPointerMove s current buttons pressure).presence.selection =
        findIntersectingLayersWithRectangle s.layerIds s.layers origin
          current) := by
  constructor
  · intro origin hcs
    refine ⟨?_, ?_⟩
    · by_cases hd : 5 < |current.x - origin.x| + |current.y - origin.y| <;>
        simp [onPointerMove, hcs, startMultiSelection, hd]
    · intro hle
      have hd : ¬ 5 < |current.x - origin.x| + |current.y - origin.y| :=
        not_lt.mpr hle
      simp [onPointerMove, hcs, startMultiSelection, hd]
  · intro origin cur0 hcs
    exact ⟨by simp [onPointerMove, hcs, updateSelectionNet],
      by simp [onPointerMove, hcs, updateSelectionNet]⟩

/-- Witness for C6: a press at the origin moved to (10, 10) crosses the
threshold and opens a selection net, and a move during a net recomputes the
selection from the intersection test. -/
theorem selection_net_spec_w :
    (pressS.canvasState = .Pressing ⟨0, 0⟩ ∧
      5 < |(10 : Int) - 0| + |(10 : Int) - 0|) ∧
    (onPointerMove pressS ⟨10, 10⟩ 1 1).canvasState =
      .SelectionNet ⟨0, 0⟩ ⟨10, 10⟩ ∧
    netS.canvasState = .SelectionNet ⟨0, 0⟩ ⟨10, 10⟩ ∧
    (onPointerMove netS ⟨12, 12⟩ 1 1).presence.selection =
      findIntersectingLayersWithRectangle netS.layerIds netS.layers ⟨0, 0⟩
        ⟨12, 12⟩ :=
  have h1 := ((selection_net_spec pressS ⟨10, 10⟩ 1 1).1 ⟨0, 0⟩ rfl).1
  have h2 := (selection_net_spec netS ⟨12, 12⟩ 1 1).2 ⟨0, 0⟩ ⟨10, 10⟩ rfl
  ⟨⟨rfl, by decide⟩, h1.mpr (by decide), rfl, h2.2⟩

/-- Claim C7: with the mode `Pencil`, a pointer move appends the new
`(x, y, pressure)` sample to the presence pencil draft exactly when the
primary button alone is held (`buttons = 1`) and a draft exists, except that a
draft holding a single point with the same x/y as the new point is left
unchanged (no duplicate sample is appended). -/
theorem pencil_draft_append_spec (s : CanvasS) (p : Point) (buttons : Nat)
    (pressure : Int) (hmode : s.canvasState = .Pencil) :
    (∀ d, s.presence.pencilDraft = some d → buttons = 1 →
      (¬ (d.length = 1 ∧ (d.headD (0, 0, 0)).1 = p.x ∧
          (d.headD (0, 0, 0)).2.1 = p.y) →
        (onPointerMove s p buttons pressure).presence.pencilDraft =
          some (d ++ [(p.x, p.y, pressure)])) ∧
      ((d.length = 1 ∧ (d.headD (0, 0, 0)).1 = p.x ∧
          (d.headD (0, 0, 0)).2.1 = p.y) →
        (onPointerMove s p buttons pressure).presence.pencilDraft =
          some d)) ∧
    ((buttons ≠ 1 ∨ s.presence.pencilDraft = none) →
      (onPointerMove s p buttons pressure).presence.pencilDraft =
        s.presence.pencilDraft) := by
  have houter : (onPointerMove s p buttons pressure).presence.pencilDraft =
      (continueDrawing s p buttons pressure).presence.pencilDraft := by
    simp [onPointerMove, hmode]
  constructor
  · intro d hd hb
    have hguard : ¬ (s.canvasState ≠ CanvasState.Pencil ∨ buttons ≠ 1) := by
      simp [hmode, hb]
    constructor
    · intro hne
      rw [houter]
      simp only [continueDrawing, hd]
      rw [if_neg hguard, if_neg hne]
    · intro heq
      rw [houter]
      simp only [continueDrawing, hd]
      rw [if_neg hguard, if_pos heq]
  · rintro (hb | hdn)
    · cases hd2 : s.presence.pencilDraft with
      | none => simp [onPointerMove, hmode, continueDrawing, hd2]
      | some d =>
        rw [houter]
        simp only [continueDrawing, hd2]
        rw [if_pos (Or.inr hb)]
        exact hd2
    · rw [houter, hdn]
      simp only [continueDrawing, hdn]

/-- Witness for C7: a qualifying move to (7, 7) appends the sample to the
concrete two-sample draft. -/
theorem pencil_draft_append_spec_w :
    (pencilS.canvasState = .Pencil ∧
      pencilS.presence.pencilDraft = some [(0, 0, 1), (5, 5, 1)] ∧
      ¬ (([(0, 0, 1), (5, 5, 1)] : List (Int × Int × Int)).length = 1 ∧
        (([(0, 0, 1), (5, 5, 1)] :
          List (Int × Int × Int)).headD (0, 0, 0)).1 = (7 : Int) ∧
        (([(0, 0, 1), (5, 5, 1)] :
          List (Int × Int × Int)).headD (0, 0, 0)).2.1 = (7 : Int))) ∧
    (onPointerMove pencilS ⟨7, 7⟩ 1 2).presence.pencilDraft =
      some [(0, 0, 1), (5, 5, 1), (7, 7, 2)] :=
  have h := ((pencil_draft_append_spec pencilS ⟨7, 7⟩ 1 2 rfl).1
    [(0, 0, 1), (5, 5, 1)] rfl rfl).1 (by decide)
  ⟨⟨rfl, rfl, by decide⟩, by rw [h]; rfl⟩

theorem unselectLayers_selection (s : CanvasS) :
    (unselectLayers s).presence.selection = [] := by
  unfold unselectLayers
  by_cases h : 0 < s.presence.selection.length
  · rw [if_pos h]
  · rw [if_neg h]
    exact List.length_eq_zero.mp (Nat.le_zero.mp (Nat.not_lt.mp h))

/-- Counterexample for C8 as stated: a pointer-up during a selection net falls
to the generic else branch of `onPointerUp`, which resets the mode to `None`
but does not call `unselectLayers` — the net's selection `["a"]` survives the
pointer-up instead of being cleared. -/
theorem selectionnet_pointer_up_keeps_selection :
    netS.presence.selection = ["a"] ∧
    netS.canvasState = .SelectionNet ⟨0, 0⟩ ⟨10, 10⟩ ∧
    (onPointerUp netS ⟨10, 10⟩ "z").presence.selection = ["a"] ∧
    ¬ (onPointerUp netS ⟨10, 10⟩ "z").presence.selection = [] ∧
    (onPointerUp netS ⟨10, 10⟩ "z").canvasState = .None :=
  ⟨rfl, rfl, rfl, by decide, rfl⟩

/-- Claim C8 (amended): `unselectLayers` is applied unconditionally on every
pointer-up in the `None`/`Pressing` idle branch, leaving the selection empty;
a pointer-up during `SelectionNet` (like `Translating`/`Resizing`) falls to
the generic else branch, which resets the mode to `None` and leaves the
selection unchanged, so a net's selection survives that pointer-up and is
cleared only on a subsequent idle pointer-down/pointer-up. -/
theorem pointer_up_unselect_spec (s : CanvasS) (p q : Point)
    (nid mid : String) (pressure : Int) :
    ((s.canvasState = .None ∨ (∃ o, s.canvasState = .Pressing o)) →
      (onPointerUp s p nid).presence.selection = [] ∧
      (onPointerUp s p nid).canvasState = .None) ∧
    (∀ o c, s.canvasState = .SelectionNet o c →
      (onPointerUp s p nid).presence.selection = s.presence.selection ∧
      (onPointerUp s p nid).canvasState = .None ∧
      (onPointerUp (onPointerDown (onPointerUp s p nid) q pressure) q
        mid).presence.selection = []) := by
  constructor
  · rintro (hn | ⟨o, ho⟩)
    · exact ⟨by simp [onPointerUp, hn, unselectLayers_selection],
        by simp [onPointerUp, hn]⟩
    · exact ⟨by simp [onPointerUp, ho, unselectLayers_selection],
        by simp [onPointerUp, ho]⟩
  · intro o c hcs
    have h2 : (onPointerUp s p nid).canvasState = .None := by
      simp [onPointerUp, hcs]
    have h3 : (onPointerDown (onPointerUp s p nid) q pressure).canvasState =
        .Pressing q := by
      simp [onPointerDown, h2]
    have h4 : ∀ (u : CanvasS), u.canvasState = .Pressing q →
        (onPointerUp u q mid).presence.selection = [] := by
      intro u hu
      simp [onPointerUp, hu, unselectLayers_selection]
    exact ⟨by simp [onPointerUp, hcs], h2, h4 _ h3⟩

/-- Witness for C8 (amended) at the concrete net state: the net's selection
survives its own pointer-up and is cleared by the following idle click. -/
theorem pointer_up_unselect_spec_w :
    netS.canvasState = .SelectionNet ⟨0, 0⟩ ⟨10, 10⟩ ∧
    (onPointerUp netS ⟨10, 10⟩ "z").presence.selection =
      netS.presence.selection ∧
    (onPointerUp (onPointerDown (onPointerUp netS ⟨10, 10⟩ "z") ⟨1, 1⟩ 1)
      ⟨1, 1⟩ "w").presence.selection = [] :=
  have h := (pointer_up_unselect_spec netS ⟨10, 10⟩ ⟨1, 1⟩ "z" "w" 1).2
    ⟨0, 0⟩ ⟨10, 10⟩ rfl
  ⟨rfl, h.1, h.2.2⟩

/-- Counterexample for C9 as stated: the source registers no handler for loss
of pointer capture, so after a drag has paused the history, a capture-loss
event leaves the history paused instead of resuming it. -/
theorem lost_capture_keeps_history_paused :
    pausedS.historyPaused = true ∧
    (dispatch pausedS .lostCapture).historyPaused = true :=
  ⟨rfl, rfl⟩

/-- Claim C9 (amended): a layer pointer-down outside `Pencil`/`Inserting`
pauses the undo history, and every pointer-up — in every branch of the
handler — resumes it, so after any pointer-up the history is never left
paused; loss of pointer capture has no registered handler and leaves the
whole state (including a paused history) unchanged. -/
theorem history_bracketing_spec (s : CanvasS) (p : Point)
    (nid lid : String) :
    (dispatch s (.up p nid)).historyPaused = false ∧
    (s.canvasState ≠ .Pencil → (∀ t, s.canvasState ≠ .Inserting t) →
      (dispatch s (.layerDown p lid)).historyPaused = true) ∧
    dispatch s .lostCapture = s := by
  refine ⟨rfl, ?_, rfl⟩
  intro h1 h2
  cases hcs : s.canvasState with
  | Pencil => exact absurd hcs h1
  | Inserting t => exact absurd hcs (h2 t)
  | None =>
    by_cases hm : lid ∈ s.presence.selection <;>
      simp [dispatch, onLayerPointerDown, hcs, hm]
  | Pressing o =>
    by_cases hm : lid ∈ s.presence.selection <;>
      simp [dispatch, onLayerPointerDown, hcs, hm]
  | SelectionNet o c =>
    by_cases hm : lid ∈ s.presence.selection <;>
      simp [dispatch, onLayerPointerDown, hcs, hm]
  | Translating c =>
    by_cases hm : lid ∈ s.presence.selection <;>
      simp [dispatch, onLayerPointerDown, hcs, hm]
  | Resizing b c =>
    by_cases hm : lid ∈ s.presence.selection <;>
      simp [dispatch, onLayerPointerDown, hcs, hm]

/-- Witness for C9 (amended) at a concrete mid-drag state. -/
theorem history_bracketing_spec_w :
    (transS.canvasState ≠ .Pencil ∧
      (∀ t, transS.canvasState ≠ .Inserting t)) ∧
    (dispatch transS (.up ⟨0, 0⟩ "z")).historyPaused = false ∧
    (dispatch transS (.layerDown ⟨0, 0⟩ "a")).historyPaused = true ∧
    dispatch transS .lostCapture = transS :=
  have h := history_bracketing_spec transS ⟨0, 0⟩ "z" "a"
  ⟨⟨fun h => CanvasState.noConfusion h,
      fun _ h => CanvasState.noConfusion h⟩,
    h.1, h.2.1 (fun h => CanvasState.noConfusion h)
      (fun _ h => CanvasState.noConfusion h), h.2.2⟩

/-- Claim C10: a selected layer id with no stored layer is silently skipped:
`translateSelectedLayers` behaves as if the stale id were filtered out of the
selection (and the stale id's lookup stays `none`), and `resizeSelectedLayer`
with a stale id under `selection[0]` returns the state unchanged; no other
layer is affected by the skipped id and no error is possible (the operations
are total). -/
theorem stale_ids_skipped_spec (s : CanvasS) (point : Point) (bad : String)
    (hbad : getLayer s.layers bad = none) :
    (∀ cur, s.canvasState = .Translating cur →
      (translateSelectedLayers s point).layers =
        translateLoop ⟨point.x - cur.x, point.y - cur.y⟩
          (s.presence.selection.filter (fun i => i != bad)) s.layers ∧
      getLayer (translateSelectedLayers s point).layers bad = none) ∧
    (∀ b c, s.canvasState = .Resizing b c →
      s.presence.selection.head? = some bad →
      resizeSelectedLayer s point = s) := by
  constructor
  · intro cur hcs
    have hl : (translateSelectedLayers s point).layers =
        translateLoop ⟨point.x - cur.x, point.y - cur.y⟩
          s.presence.selection s.layers := by
      simp [translateSelectedLayers, hcs]
    constructor
    · rw [hl]
      exact translateLoop_filter_missing _ _ _ _ hbad
    · rw [hl, translateLoop_filter_missing _ _ _ _ hbad,
        getLayer_translateLoop_not_mem _ _ _ _ (by simp [List.mem_filter])]
      exact hbad
  · intro b c hcs hsel
    simp [resizeSelectedLayer, hcs, hsel, hbad]

/-- Witness for C10 at concrete states whose selection holds the stale id
`"ghost"`. -/
theorem stale_ids_skipped_spec_w :
    (getLayer staleS.layers "ghost" = none ∧
      staleS.canvasState = .Translating ⟨0, 0⟩) ∧
    getLayer (translateSelectedLayers staleS ⟨3, 4⟩).layers "ghost" = none ∧
    (getLayer staleResizeS.layers "ghost" = none ∧
      staleResizeS.canvasState =
        .Resizing ⟨0, 0, 10, 10⟩ ⟨true, false, true, false⟩ ∧
      staleResizeS.presence.selection.head? = some "ghost") ∧
    resizeSelectedLayer staleResizeS ⟨3, 4⟩ = staleResizeS :=
  have h1 := (stale_ids_skipped_spec staleS ⟨3, 4⟩ "ghost" rfl).1 ⟨0, 0⟩ rfl
  have h2 := (stale_ids_skipped_spec staleResizeS ⟨3, 4⟩ "ghost" rfl).2
    ⟨0, 0, 10, 10⟩ ⟨true, false, true, false⟩ rfl rfl
  ⟨⟨rfl, rfl⟩, h1.2, ⟨rfl, rfl, rfl⟩, h2⟩

end Whiteboard
